import Mathlib

/-!
Verification development for the paginated Zoom report fetcher in
src/online_meetings/report.py.  The Python functions get_request_retry,
get_total_page_count, zoom_loop and run_report are embedded as pure Lean
functions.  The network is modelled as a script: a list of HTTP responses
consumed in order by requests.get.  Side effects (requests issued, sleeps
performed) are collected in an explicit event trace.  Python exceptions are
modelled by the Outcome type; the Outcome.stuck constructor is a model
artifact meaning only that the scripted response list ran out or the step
budget was exhausted, never a behaviour of the program itself.
-/

set_option autoImplicit false

/-- Scalar field value of a flat record (the spec describes records as flat
mappings from field name to scalar value). -/
inductive Scalar where
  | int : Int → Scalar
  | str : String → Scalar
deriving DecidableEq, Repr

/-- One meeting/user/webinar record: a flat mapping, as a Python dict. -/
abbrev Rec := List (String × Scalar)

/-- A decoded JSON value as it occurs in this program: an integer, a string,
or an array of flat records. -/
inductive JVal where
  | jInt : Int → JVal
  | jStr : String → JVal
  | jArr : List Rec → JVal
deriving DecidableEq, Repr

/-- A Python dict with string keys holding JSON values (query parameters and
decoded response objects). -/
abbrev Dict := List (String × JVal)

/-- The ZoomJWT signing object: opaque credential built from an API key, a
secret and an expiry in seconds. -/
structure Auth where
  apiKey : String
  apiSecret : String
  expSeconds : Nat
deriving DecidableEq, Repr

/-- A scripted HTTP response: its status code, the optional Retry-After
header, and the decoded JSON body (none models a body on which json.loads
raises JSONDecodeError). -/
structure HttpResponse where
  status : Nat
  retryAfter : Option String
  body : Option Dict
deriving DecidableEq, Repr

/-- Python exceptions that can escape the embedded functions. -/
inductive PyError where
  | httpError : PyError
  | keyError : String → PyError
  | typeError : String → PyError
deriving DecidableEq, Repr

/-- Result of running a piece of Python code: a value, an uncaught
exception, or the model-artifact stuck state (script or fuel exhausted). -/
inductive Outcome (α : Type) where
  | ok : α → Outcome α
  | exn : PyError → Outcome α
  | stuck : Outcome α
deriving DecidableEq, Repr

/-- Observable side effects: an HTTP GET with its url, credential and query
parameters, or a completed sleep of a duration in seconds. -/
inductive Ev where
  | req : String → Auth → Dict → Ev
  | slept : Int → Ev
deriving DecidableEq, Repr

/-- Lookup in a Python dict (dict.get): the value at the first matching key. -/
def aget {α : Type} : List (String × α) → String → Option α
  | [], _ => none
  | (k2, v) :: rest, k => if k2 = k then some v else aget rest k

/-- Store into a Python dict (d[k] = v): replace the first binding of the key
in place, or append a new binding. -/
def aset {α : Type} : List (String × α) → String → α → List (String × α)
  | [], k, v => [(k, v)]
  | (k2, v2) :: rest, k, v =>
    if k2 = k then (k, v) :: rest else (k2, v2) :: aset rest k v

/-- Python truthiness of a JSON value: zero, the empty string and the empty
array are falsy. -/
def truthy : JVal → Bool
  | .jInt n => n != 0
  | .jStr s => s != ""
  | .jArr rs => !rs.isEmpty

/-- Python truthiness of a dict.get result: None is falsy. -/
def truthyOpt : Option JVal → Bool
  | none => false
  | some v => truthy v

/-- time.sleep: accepts a number and raises TypeError on anything else
(in particular on a string).  Returns the duration actually slept. -/
def pySleep : JVal → Except PyError Int
  | .jInt n => .ok n
  | _ => .error (.typeError "an integer is required for sleep")

/-- Python dict equality used by list comparison: both dicts bind the same
keys to the same values. -/
def recEqb (a b : Rec) : Bool :=
  a.all (fun kv => aget b kv.1 == some kv.2) &&
    b.all (fun kv => aget a kv.1 == some kv.2)

/-- Python list ordering on arrays of records: lexicographic, where
comparing two unequal dicts raises TypeError (dicts are unorderable). -/
def pyLEList : List Rec → List Rec → Except PyError Bool
  | [], _ => .ok true
  | _ :: _, [] => .ok false
  | a :: arest, b :: brest =>
    if recEqb a b then pyLEList arest brest
    else .error (.typeError "dict instances are not orderable")

/-- Python comparison x <= y between JSON values: defined within one type,
TypeError across types. -/
def pyLEJ : JVal → JVal → Except PyError Bool
  | .jInt a, .jInt b => .ok (decide (a ≤ b))
  | .jStr a, .jStr b => .ok (decide (a ≤ b))
  | .jArr a, .jArr b => pyLEList a b
  | _, _ => .error (.typeError "mixed types are not orderable")

/-- Python comparison x <= y where x came from dict.get: comparing None with
anything raises TypeError. -/
def pyLEOpt : Option JVal → JVal → Except PyError Bool
  | none, _ => .error (.typeError "NoneType is not orderable")
  | some a, b => pyLEJ a b

/-- response.raise_for_status: raises HTTPError exactly for 4xx and 5xx
status codes; any other status is passed through. -/
def checkStatus (r : HttpResponse) : Outcome HttpResponse :=
  if 400 ≤ r.status ∧ r.status < 600 then .exn .httpError else .ok r

/-- Result of one embedded step: its outcome, the events it performed, and
the part of the response script it did not consume. -/
structure StepRes (α : Type) where
  out : Outcome α
  events : List Ev
  rest : List HttpResponse
deriving DecidableEq, Repr

/-- The wait-and-reissue while loop inside get_request_retry: as long as the
current response has status 429, sleep the chosen duration and issue the GET
again.  The sleep duration was fixed before the loop and is reused verbatim
on every round, exactly as in the source. -/
def retryWait (st : JVal) (url : String) (auth : Auth) (params : Dict) :
    HttpResponse → List HttpResponse → StepRes HttpResponse
  | r, script =>
    if r.status = 429 then
      match pySleep st with
      | .error e => ⟨.exn e, [], script⟩
      | .ok d =>
        match script with
        | [] => ⟨.stuck, [.slept d], []⟩
        | r2 :: rest =>
          let x := retryWait st url auth params r2 rest
          ⟨x.out, .slept d :: .req url auth params :: x.events, x.rest⟩
    else ⟨checkStatus r, [], script⟩

/-- Embedding of get_request_retry: issue the GET; on a 429 pick the sleep
duration from the Retry-After header when that header is a nonempty digit
string (note the source stores the header string itself into sleep_time),
else the configured default; run the wait-reissue loop; finally
raise_for_status on a non-ok status. -/
def get_request_retry (defSleep : JVal) (url : String) (auth : Auth)
    (params : Dict) (script : List HttpResponse) : StepRes HttpResponse :=
  match script with
  | [] => ⟨.stuck, [], []⟩
  | r :: rest =>
    if r.status = 429 then
      let st : JVal :=
        match r.retryAfter with
        | some s => if (s != "") && s.data.all Char.isDigit then .jStr s else defSleep
        | none => defSleep
      let x := retryWait st url auth params r rest
      ⟨x.out, .req url auth params :: x.events, x.rest⟩
    else ⟨checkStatus r, [.req url auth params], rest⟩

/-- Embedding of get_total_page_count: delegate one request; absorb
HTTPError as 0; absorb a JSON decode failure as 0 (total_page_count was
initialised to 0); otherwise read the page_count key of the decoded body,
whose absence raises KeyError because only JSONDecodeError is caught. -/
def get_total_page_count (defSleep : JVal) (url : String) (auth : Auth)
    (params : Dict) (script : List HttpResponse) : StepRes JVal :=
  let f := get_request_retry defSleep url auth params script
  match f.out with
  | .exn .httpError => ⟨.ok (.jInt 0), f.events, f.rest⟩
  | .exn e => ⟨.exn e, f.events, f.rest⟩
  | .stuck => ⟨.stuck, f.events, f.rest⟩
  | .ok resp =>
    match resp.body with
    | none => ⟨.ok (.jInt 0), f.events, f.rest⟩
    | some results =>
      match aget results "page_count" with
      | none => ⟨.exn (.keyError "page_count"), f.events, f.rest⟩
      | some v => ⟨.ok v, f.events, f.rest⟩

/-- Result of one run of the zoom_loop pagination loop: the outcome, the
final in-place state of the params dict, the event trace, and the response
script left over. -/
structure LoopRes where
  out : Outcome (List Rec)
  finalParams : Dict
  events : List Ev
  rest : List HttpResponse
deriving DecidableEq, Repr

/-- Prepend already-performed events to a loop result. -/
def addEvs (evs : List Ev) (r : LoopRes) : LoopRes :=
  ⟨r.out, r.finalParams, evs ++ r.events, r.rest⟩

/-- list.extend(results[name]): extending with an array appends its records;
extending with an int raises TypeError (not iterable).  The source could
also be handed a string here, which Python would iterate character by
character; no scripted body in this development puts a scalar under the
record field name, so that corner is collapsed into the same error. -/
def extendRecs (acc : List Rec) : JVal → Except PyError (List Rec)
  | .jArr rs => .ok (acc ++ rs)
  | _ => .error (.typeError "object is not iterable")

/-- The while loop of zoom_loop.  State per iteration: the truthiness of the
local page_token variable (the only thing the source ever reads from it),
the params dict, the total page count and the accumulated records.  Each
iteration first evaluates the loop condition with Python shortcut semantics,
then fetches, decodes, extends, and advances by token, by page-number
increment, or by break, exactly mirroring the source.  The fuel argument
only bounds the number of iterations the model unfolds; zoom_loop passes
enough for any script. -/
def zoomLoopAux (defSleep : JVal) (url : String) (auth : Auth) (name : String) :
    Nat → Bool → Dict → JVal → List Rec → List HttpResponse → LoopRes
  | 0, _, params, _, _, script => ⟨.stuck, params, [], script⟩
  | fuel + 1, pageTok, params, pc, acc, script =>
    let cond : Except PyError Bool :=
      if pageTok then .ok true else pyLEOpt (aget params "page_number") pc
    match cond with
    | .error e => ⟨.exn e, params, [], script⟩
    | .ok false => ⟨.ok acc, params, [], script⟩
    | .ok true =>
      let f := get_request_retry defSleep url auth params script
      match f.out with
      | .stuck => ⟨.stuck, params, f.events, f.rest⟩
      | .exn .httpError => ⟨.ok acc, params, f.events, f.rest⟩
      | .exn e => ⟨.exn e, params, f.events, f.rest⟩
      | .ok resp =>
        match resp.body with
        | none => ⟨.ok acc, params, f.events, f.rest⟩
        | some results =>
          match aget results name with
          | none => ⟨.exn (.keyError name), params, f.events, f.rest⟩
          | some arr =>
            match extendRecs acc arr with
            | .error e => ⟨.exn e, params, f.events, f.rest⟩
            | .ok acc2 =>
              match aget results "next_page_token" with
              | some tok =>
                if truthy tok then
                  addEvs f.events (zoomLoopAux defSleep url auth name fuel true
                    (aset params "next_page_token" tok) pc acc2 f.rest)
                else
                  match aget params "page_number" with
                  | some pn =>
                    if truthy pn then
                      match pn with
                      | .jInt n =>
                        addEvs f.events (zoomLoopAux defSleep url auth name fuel
                          pageTok (aset params "page_number" (.jInt (n + 1))) pc
                          acc2 f.rest)
                      | _ =>
                        ⟨.exn (.typeError
                          "Could not increment page number as it not an int"),
                          params, f.events, f.rest⟩
                    else ⟨.ok acc2, params, f.events, f.rest⟩
                  | none => ⟨.ok acc2, params, f.events, f.rest⟩
              | none =>
                match aget params "page_number" with
                | some pn =>
                  if truthy pn then
                    match pn with
                    | .jInt n =>
                      addEvs f.events (zoomLoopAux defSleep url auth name fuel
                        pageTok (aset params "page_number" (.jInt (n + 1))) pc
                        acc2 f.rest)
                    | _ =>
                      ⟨.exn (.typeError
                        "Could not increment page number as it not an int"),
                        params, f.events, f.rest⟩
                  else ⟨.ok acc2, params, f.events, f.rest⟩
                | none => ⟨.ok acc2, params, f.events, f.rest⟩

/-- Embedding of zoom_loop: first obtain the total page count (the source
calls get_total_page_count unconditionally, token mode included), then run
the pagination while loop on the rest of the script. -/
def zoom_loop (defSleep : JVal) (url : String) (auth : Auth) (name : String)
    (params : Dict) (page_token : Bool) (script : List HttpResponse) : LoopRes :=
  let g := get_total_page_count defSleep url auth params script
  match g.out with
  | .exn e => ⟨.exn e, params, g.events, g.rest⟩
  | .stuck => ⟨.stuck, params, g.events, g.rest⟩
  | .ok pc =>
    addEvs g.events (zoomLoopAux defSleep url auth name (g.rest.length + 1)
      page_token params pc [] g.rest)

/-- One configured Zoom account: base URL, API key and secret, and the
optional EARLIEST_FROM date.  Calendar dates are modelled as day ordinals
(Nat); the EARLIEST_FROM entry is stored already parsed. -/
structure ZoomConfig where
  baseUrl : String
  apiKey : String
  apiSecret : String
  earliestFrom : Option Nat := none
deriving DecidableEq, Repr

/-- ZoomJWT(key, secret, exp_seconds): build the signed request credential. -/
def zoomJWT (key secret : String) (exp_seconds : Nat) : Auth :=
  ⟨key, secret, exp_seconds⟩

/-- str(param_date): the date string of a day ordinal, modelled as its
decimal rendering (an injective stand-in for the ISO date string). -/
def dateStr (d : Nat) : String := toString d

/-- Set both the from and the to query parameter to the date string of one
day, as the date loop of run_report does before each pull. -/
def dparams (p : Dict) (d : Nat) : Dict :=
  aset (aset p "from" (.jStr (dateStr d))) "to" (.jStr (dateStr d))

/-- The page-size merge at the top of run_report: if page_size is truthy it
is stored into the params dict before any account is processed. -/
def mergedParams (dp : Dict) (page_size : Int) : Dict :=
  if page_size != 0 then aset dp "page_size" (.jInt page_size) else dp

/-- One zoom_loop invocation as observed from run_report: the url, the
credential and the params dict value it was handed (the source passes
dict(params), a fresh copy). -/
structure Invocation where
  url : String
  auth : Auth
  params : Dict
deriving DecidableEq, Repr

/-- Result of the date loop of run_report for one account: outcome of the
accumulated records, the shared params dict after its in-place from/to
updates, the zoom_loop invocations made, the events, and the remaining
script. -/
structure DatesRes where
  out : Outcome (List Rec)
  params : Dict
  calls : List Invocation
  events : List Ev
  rest : List HttpResponse
deriving DecidableEq, Repr

/-- The per-date loop of run_report: for each day, overwrite from and to in
the shared params dict, call zoom_loop on a copy of it (the copy is modelled
by passing the value and discarding the finalParams the loop mutated), and
extend the account list.  An uncaught exception aborts the whole run. -/
def reportDates (defSleep : JVal) (url : String) (auth : Auth) (name : String)
    (page_token : Bool) :
    List Nat → Dict → List HttpResponse → DatesRes
  | [], params, script => ⟨.ok [], params, [], [], script⟩
  | d :: days, params, script =>
    let params1 := dparams params d
    let r := zoom_loop defSleep url auth name params1 page_token script
    match r.out with
    | .exn e => ⟨.exn e, params1, [⟨url, auth, params1⟩], r.events, r.rest⟩
    | .stuck => ⟨.stuck, params1, [⟨url, auth, params1⟩], r.events, r.rest⟩
    | .ok recs =>
      let t := reportDates defSleep url auth name page_token days params1 r.rest
      ⟨(match t.out with
        | .ok more => .ok (recs ++ more)
        | o => o),
        t.params, ⟨url, auth, params1⟩ :: t.calls, r.events ++ t.events, t.rest⟩

/-- Result of run_report up to the accumulated record list (the CSV writing
and derived columns downstream of total_list are the out-of-scope output
collaborator). -/
structure AccRes where
  out : Outcome (List Rec)
  calls : List Invocation
  events : List Ev
  rest : List HttpResponse
deriving DecidableEq, Repr

/-- The per-account loop of run_report: build the url and the credential,
run either the date loop or a single zoom_loop on a copy of params, tag
every record of this account with its 1-based index under media_instance,
and continue with the next account.  The shared params dict (with its
in-place from/to updates) is threaded into the next account, exactly as the
aliased dict in the source. -/
def reportAccounts (defSleep : JVal) (api_url name : String)
    (page_token use_date : Bool) (today : Nat) :
    List ZoomConfig → Nat → Dict → List HttpResponse → AccRes
  | [], _, _, script => ⟨.ok [], [], [], script⟩
  | cfg :: cfgs, key, params, script =>
    let url := cfg.baseUrl ++ api_url
    let auth := zoomJWT cfg.apiKey cfg.apiSecret 600
    match (if use_date then cfg.earliestFrom else none) with
    | some early =>
      let days := (List.range (today - early)).map (fun i => early + i)
      let dr := reportDates defSleep url auth name page_token days params script
      match dr.out with
      | .exn e => ⟨.exn e, dr.calls, dr.events, dr.rest⟩
      | .stuck => ⟨.stuck, dr.calls, dr.events, dr.rest⟩
      | .ok recs =>
        let tagged := recs.map (fun r => aset r "media_instance" (.int (key : Int)))
        let t := reportAccounts defSleep api_url name page_token use_date today
          cfgs (key + 1) dr.params dr.rest
        ⟨(match t.out with
          | .ok more => .ok (tagged ++ more)
          | o => o),
          dr.calls ++ t.calls, dr.events ++ t.events, t.rest⟩
    | none =>
      let r := zoom_loop defSleep url auth name params page_token script
      match r.out with
      | .exn e => ⟨.exn e, [⟨url, auth, params⟩], r.events, r.rest⟩
      | .stuck => ⟨.stuck, [⟨url, auth, params⟩], r.events, r.rest⟩
      | .ok recs =>
        let tagged := recs.map (fun r => aset r "media_instance" (.int (key : Int)))
        let t := reportAccounts defSleep api_url name page_token use_date today
          cfgs (key + 1) params r.rest
        ⟨(match t.out with
          | .ok more => .ok (tagged ++ more)
          | o => o),
          ⟨url, auth, params⟩ :: t.calls, r.events ++ t.events, t.rest⟩

/-- Embedding of run_report up to total_list: merge the page size into the
shared params dict, then run the account loop with 1-based enumeration. -/
def run_report (defSleep : JVal) (configs : List ZoomConfig)
    (api_url name : String) (default_params : Dict) (page_size : Int)
    (page_token use_date : Bool) (today : Nat)
    (script : List HttpResponse) : AccRes :=
  reportAccounts defSleep api_url name page_token use_date today configs 1
    (mergedParams default_params page_size) script

/-- A plain success response carrying a decoded JSON object. -/
def mkResp (b : Dict) : HttpResponse := ⟨200, none, some b⟩

/-- A success response whose body announces a total page count. -/
def pcResp (m : Int) : HttpResponse := mkResp [("page_count", .jInt m)]

/-- A success response carrying one page of records and no token. -/
def pageResp (name : String) (rs : List Rec) : HttpResponse :=
  mkResp [(name, .jArr rs)]

/-- A success response carrying one page of records and a continuation
token. -/
def tokResp (name : String) (rs : List Rec) (t : String) : HttpResponse :=
  mkResp [(name, .jArr rs), ("next_page_token", .jStr t)]

/-- A plain HTTP failure (status 404, body irrelevant). -/
def errResp : HttpResponse := ⟨404, none, none⟩

/-- A well-formed page for page-number pagination: body paired with the
record array it holds under the record field name, and no continuation
token. -/
abbrev PageOk (name : String) (p : Dict × List Rec) : Prop :=
  aget p.1 name = some (.jArr p.2) ∧ aget p.1 "next_page_token" = none

/-- A well-formed page for token pagination: body paired with its record
array and its nonempty continuation token string. -/
abbrev TokPage (name : String) (p : Dict × List Rec × String) : Prop :=
  aget p.1 name = some (.jArr p.2.1) ∧
    aget p.1 "next_page_token" = some (.jStr p.2.2) ∧ p.2.2 ≠ ""

/-- The requests a page-number loop issues for k consecutive pages starting
at page i: identical url, credential and params except for the advancing
page number. -/
def pageEvents (url : String) (auth : Auth) (params : Dict) : Int → Nat → List Ev
  | _, 0 => []
  | i, k + 1 =>
    .req url auth (aset params "page_number" (.jInt i)) ::
      pageEvents url auth params (i + 1) k

/-- The params dict after storing the continuation tokens of the given pages
one after another. -/
def tokParams (params : Dict) : List (Dict × List Rec × String) → Dict
  | [] => params
  | p :: ps => tokParams (aset params "next_page_token" (.jStr p.2.2)) ps

/-- The requests a token loop issues while consuming the given token pages:
each request carries the params as updated by the tokens seen so far. -/
def tokEvents (url : String) (auth : Auth) (params : Dict) :
    List (Dict × List Rec × String) → List Ev
  | [] => []
  | p :: ps =>
    .req url auth params ::
      tokEvents url auth (aset params "next_page_token" (.jStr p.2.2)) ps

/-- The zoom_loop invocations run_report owes one account in date mode: one
per day from its earliest date up to today exclusive, ascending, with from
and to set to that day. -/
def c7CallsFor (api_url : String) (base : Dict) (today : Nat)
    (cfg : ZoomConfig) : List Invocation :=
  match cfg.earliestFrom with
  | some e =>
    (List.range (today - e)).map
      (fun i => ⟨cfg.baseUrl ++ api_url, zoomJWT cfg.apiKey cfg.apiSecret 600,
        dparams base (e + i)⟩)
  | none => []

/-- A benign script for the date-mode scenario: every zoom_loop call meets a
single zero-page page-count response and finishes at once. -/
def c7Script (today : Nat) (configs : List ZoomConfig) : List HttpResponse :=
  (configs.map
    (fun cfg => List.replicate (today - cfg.earliestFrom.getD 0) (pcResp 0))).flatten

/-- Script for the account-annotation scenario: each of n accounts starting
at index key gets a one-page pull returning its own records. -/
def c8Script (name : String) (recsF : Nat → List Rec) : Nat → Nat → List HttpResponse
  | _, 0 => []
  | key, n + 1 =>
    pcResp 1 :: pageResp name (recsF key) :: c8Script name recsF (key + 1) n

/-- Expected total record list of the account-annotation scenario: each
account's records tagged with its own 1-based index. -/
def c8Total (recsF : Nat → List Rec) : Nat → Nat → List Rec
  | _, 0 => []
  | key, n + 1 =>
    (recsF key).map (fun r => aset r "media_instance" (.int (key : Int))) ++
      c8Total recsF (key + 1) n

/-- Script block whose pagination loop performs both kinds of in-place
params mutation: a token insertion (second response), then a page-number
increment (third response), then an HTTP failure ending the loop. -/
def c9Block (name : String) (t : String) (rs1 rs2 : List Rec) :
    List HttpResponse :=
  [pcResp 1, tokResp name rs1 t, pageResp name rs2, errResp]

/-- Script for the parameter-isolation scenario: one mutating block per
account starting at index key. -/
def c9Script (name : String) (tF : Nat → String)
    (rs1F rs2F : Nat → List Rec) : Nat → Nat → List HttpResponse
  | _, 0 => []
  | key, n + 1 =>
    c9Block name (tF key) (rs1F key) (rs2F key) ++
      c9Script name tF rs1F rs2F (key + 1) n

/-- The shared params dict after the date loop has overwritten from and to
once per day, in order. -/
def dparamsFold (params : Dict) : List Nat → Dict
  | [] => params
  | d :: days => dparamsFold (dparams params d) days

/-- Script for the date-mode parameter-isolation scenario: one mutating
c9Block per day. -/
def c9DateScript (name : String) (tF : Nat → String)
    (rs1F rs2F : Nat → List Rec) (days : List Nat) : List HttpResponse :=
  (days.map (fun d => c9Block name (tF d) (rs1F d) (rs2F d))).flatten

theorem aget_aset_self {α : Type} (p : List (String × α)) (k : String) (v : α) :
    aget (aset p k v) k = some v := by
  induction p with
  | nil => simp [aset, aget]
  | cons kv rest ih =>
    obtain ⟨k2, v2⟩ := kv
    by_cases h : k2 = k <;> simp [aset, aget, h, ih]

theorem aget_aset_ne {α : Type} (p : List (String × α)) (k k2 : String) (v : α)
    (h : k2 ≠ k) : aget (aset p k v) k2 = aget p k2 := by
  induction p with
  | nil => simp [aset, aget, Ne.symm h]
  | cons kv rest ih =>
    obtain ⟨k3, v3⟩ := kv
    by_cases h3 : k3 = k
    · subst h3
      simp [aset, aget, Ne.symm h]
    · simp [aset, aget, h3, ih]

theorem aset_aset_same {α : Type} (p : List (String × α)) (k : String) (v w : α) :
    aset (aset p k v) k w = aset p k w := by
  induction p with
  | nil => simp [aset]
  | cons kv rest ih =>
    obtain ⟨k2, v2⟩ := kv
    by_cases h : k2 = k <;> simp [aset, h, ih]

theorem aset_eq_of_aget {α : Type} (p : List (String × α)) (k : String) (v : α)
    (h : aget p k = some v) : aset p k v = p := by
  induction p with
  | nil => simp [aget] at h
  | cons kv rest ih =>
    obtain ⟨k2, v2⟩ := kv
    by_cases h2 : k2 = k
    · subst h2
      simp [aget] at h
      simp [aset, h]
    · simp [aget, h2] at h
      simp [aset, h2, ih h]

theorem aset_four {α : Type} (p : List (String × α)) (k1 k2 : String)
    (a b c d : α) (h : k1 ≠ k2) :
    aset (aset (aset (aset p k1 a) k2 b) k1 c) k2 d =
      aset (aset p k1 c) k2 d := by
  induction p with
  | nil => simp [aset, h, Ne.symm h, aset_aset_same]
  | cons kv rest ih =>
    obtain ⟨k0, v0⟩ := kv
    by_cases h1 : k0 = k1
    · subst h1
      simp [aset, h, Ne.symm h, aset_aset_same]
    · by_cases h2 : k0 = k2
      · subst h2
        simp [aset, h, Ne.symm h, h1, aset_aset_same]
      · simp [aset, h1, h2, ih]

theorem dparams_dparams (p : Dict) (d0 d : Nat) :
    dparams (dparams p d0) d = dparams p d := by
  simp [dparams, aset_four p "from" "to" _ _ _ _ (by decide)]

theorem aget_dparams_ne (p : Dict) (d : Nat) (k : String)
    (hf : k ≠ "from") (ht : k ≠ "to") : aget (dparams p d) k = aget p k := by
  simp [dparams, aget_aset_ne _ _ _ _ ht, aget_aset_ne _ _ _ _ hf]

theorem aget_tokParams_ne (ps : List (Dict × List Rec × String)) (p : Dict)
    (k : String) (h : k ≠ "next_page_token") :
    aget (tokParams p ps) k = aget p k := by
  induction ps generalizing p with
  | nil => rfl
  | cons q qs ih => simp [tokParams, ih, aget_aset_ne _ _ _ _ h]

theorem get_request_retry_200 (ds : JVal) (url : String) (auth : Auth)
    (params : Dict) (r : HttpResponse) (rest : List HttpResponse)
    (h : r.status = 200) :
    get_request_retry ds url auth params (r :: rest) =
      ⟨.ok r, [.req url auth params], rest⟩ := by
  simp [get_request_retry, h, checkStatus]

theorem get_request_retry_fail (ds : JVal) (url : String) (auth : Auth)
    (params : Dict) (r : HttpResponse) (rest : List HttpResponse)
    (h4 : 400 ≤ r.status) (h6 : r.status < 600) (hne : r.status ≠ 429) :
    get_request_retry ds url auth params (r :: rest) =
      ⟨.exn .httpError, [.req url auth params], rest⟩ := by
  simp [get_request_retry, hne, checkStatus, h4, h6]

theorem get_total_page_count_ok (ds : JVal) (url : String) (auth : Auth)
    (params : Dict) (b : Dict) (v : JVal) (rest : List HttpResponse)
    (hb : aget b "page_count" = some v) :
    get_total_page_count ds url auth params (mkResp b :: rest) =
      ⟨.ok v, [.req url auth params], rest⟩ := by
  unfold get_total_page_count
  rw [get_request_retry_200 ds url auth params (mkResp b) rest rfl]
  simp [mkResp, hb]

theorem zoomLoopAux_page_step (ds : JVal) (url : String) (auth : Auth)
    (name : String) (fuel : Nat) (params : Dict) (i m : Int) (acc : List Rec)
    (b : Dict) (rs : List Rec) (rest : List HttpResponse)
    (hpn : aget params "page_number" = some (.jInt i)) (hi : i ≠ 0)
    (hle : i ≤ m)
    (hattr : aget b name = some (.jArr rs))
    (htok : aget b "next_page_token" = none) :
    zoomLoopAux ds url auth name (fuel + 1) false params (.jInt m) acc
        (mkResp b :: rest) =
      addEvs [.req url auth params]
        (zoomLoopAux ds url auth name fuel false
          (aset params "page_number" (.jInt (i + 1))) (.jInt m) (acc ++ rs)
          rest) := by
  rw [zoomLoopAux.eq_2]
  rw [get_request_retry_200 ds url auth params (mkResp b) rest rfl]
  simp [hpn, pyLEOpt, pyLEJ, hle, mkResp, hattr, htok, extendRecs, truthy, hi]

theorem zoomLoopAux_count_exit (ds : JVal) (url : String) (auth : Auth)
    (name : String) (fuel : Nat) (params : Dict) (i m : Int) (acc : List Rec)
    (script : List HttpResponse)
    (hpn : aget params "page_number" = some (.jInt i)) (hgt : m < i) :
    zoomLoopAux ds url auth name (fuel + 1) false params (.jInt m) acc script =
      ⟨.ok acc, params, [], script⟩ := by
  rw [zoomLoopAux.eq_2]
  simp [hpn, pyLEOpt, pyLEJ, not_le.mpr hgt]

theorem zoomLoopAux_none_cond (ds : JVal) (url : String) (auth : Auth)
    (name : String) (fuel : Nat) (params : Dict) (pc : JVal) (acc : List Rec)
    (script : List HttpResponse)
    (hpn : aget params "page_number" = none) :
    zoomLoopAux ds url auth name (fuel + 1) false params pc acc script =
      ⟨.exn (.typeError "NoneType is not orderable"), params, [], script⟩ := by
  rw [zoomLoopAux.eq_2]
  simp [hpn, pyLEOpt]

theorem zoomLoopAux_tok_step (ds : JVal) (url : String) (auth : Auth)
    (name : String) (fuel : Nat) (pageTok : Bool) (params : Dict) (pc : JVal)
    (acc : List Rec) (b : Dict) (rs : List Rec) (tok : JVal)
    (rest : List HttpResponse)
    (hcond : pageTok = true ∨
      pyLEOpt (aget params "page_number") pc = .ok true)
    (hattr : aget b name = some (.jArr rs))
    (htok : aget b "next_page_token" = some tok) (htr : truthy tok = true) :
    zoomLoopAux ds url auth name (fuel + 1) pageTok params pc acc
        (mkResp b :: rest) =
      addEvs [.req url auth params]
        (zoomLoopAux ds url auth name fuel true
          (aset params "next_page_token" tok) pc (acc ++ rs) rest) := by
  rw [zoomLoopAux.eq_2]
  rw [get_request_retry_200 ds url auth params (mkResp b) rest rfl]
  rcases hcond with h | h <;>
    simp [h, mkResp, hattr, htok, htr, extendRecs]

theorem zoomLoopAux_final_step (ds : JVal) (url : String) (auth : Auth)
    (name : String) (fuel : Nat) (pageTok : Bool) (params : Dict) (pc : JVal)
    (acc : List Rec) (b : Dict) (rs : List Rec) (rest : List HttpResponse)
    (hcond : pageTok = true ∨
      pyLEOpt (aget params "page_number") pc = .ok true)
    (hattr : aget b name = some (.jArr rs))
    (htok : aget b "next_page_token" = none)
    (hpn : aget params "page_number" = none) :
    zoomLoopAux ds url auth name (fuel + 1) pageTok params pc acc
        (mkResp b :: rest) =
      ⟨.ok (acc ++ rs), params, [.req url auth params], rest⟩ := by
  rw [zoomLoopAux.eq_2]
  rw [get_request_retry_200 ds url auth params (mkResp b) rest rfl]
  rcases hcond with h | h
  · simp [h, mkResp, hattr, htok, hpn, extendRecs, addEvs]
  · rw [hpn] at h
    simp [pyLEOpt] at h

theorem zoomLoopAux_raise_step (ds : JVal) (url : String) (auth : Auth)
    (name : String) (fuel : Nat) (pageTok : Bool) (params : Dict) (pc : JVal)
    (acc : List Rec) (b : Dict) (rs : List Rec) (pn : JVal)
    (rest : List HttpResponse)
    (hcond : pageTok = true ∨
      pyLEOpt (aget params "page_number") pc = .ok true)
    (hattr : aget b name = some (.jArr rs))
    (htok : aget b "next_page_token" = none)
    (hpn : aget params "page_number" = some pn) (htr : truthy pn = true)
    (hni : ∀ n : Int, pn ≠ .jInt n) :
    zoomLoopAux ds url auth name (fuel + 1) pageTok params pc acc
        (mkResp b :: rest) =
      ⟨.exn (.typeError "Could not increment page number as it not an int"),
        params, [.req url auth params], rest⟩ := by
  rw [zoomLoopAux.eq_2]
  rw [get_request_retry_200 ds url auth params (mkResp b) rest rfl]
  cases pn with
  | jInt n => exact absurd rfl (hni n)
  | jStr s =>
    rcases hcond with h | h
    · simp [h, mkResp, hattr, htok, hpn, htr, extendRecs]
    · rw [hpn] at h
      simp [h, mkResp, hattr, htok, hpn, htr, extendRecs]
  | jArr a =>
    rcases hcond with h | h
    · simp [h, mkResp, hattr, htok, hpn, htr, extendRecs]
    · rw [hpn] at h
      simp [h, mkResp, hattr, htok, hpn, htr, extendRecs]

theorem zoomLoopAux_bad_step (ds : JVal) (url : String) (auth : Auth)
    (name : String) (fuel : Nat) (pageTok : Bool) (params : Dict) (pc : JVal)
    (acc : List Rec) (bad : HttpResponse) (rest : List HttpResponse)
    (hcond : pageTok = true ∨
      pyLEOpt (aget params "page_number") pc = .ok true)
    (hbad : (400 ≤ bad.status ∧ bad.status < 600 ∧ bad.status ≠ 429) ∨
      (bad.status = 200 ∧ bad.body = none)) :
    zoomLoopAux ds url auth name (fuel + 1) pageTok params pc acc
        (bad :: rest) =
      ⟨.ok acc, params, [.req url auth params], rest⟩ := by
  rw [zoomLoopAux.eq_2]
  rcases hbad with ⟨h4, h6, hne⟩ | ⟨hst, hb⟩
  · rw [get_request_retry_fail ds url auth params bad rest h4 h6 hne]
    rcases hcond with h | h <;> simp [h]
  · rw [get_request_retry_200 ds url auth params bad rest hst]
    rcases hcond with h | h <;> simp [h, hb]

theorem addEvs_addEvs (e1 e2 : List Ev) (r : LoopRes) :
    addEvs e1 (addEvs e2 r) = addEvs (e1 ++ e2) r := by
  simp [addEvs]

theorem addEvs_nil (r : LoopRes) : addEvs [] r = r := by
  simp [addEvs]

theorem zoom_loop_eq (ds : JVal) (url : String) (auth : Auth) (name : String)
    (params : Dict) (page_token : Bool) (b : Dict) (v : JVal)
    (rest : List HttpResponse) (hb : aget b "page_count" = some v) :
    zoom_loop ds url auth name params page_token (mkResp b :: rest) =
      addEvs [.req url auth params]
        (zoomLoopAux ds url auth name (rest.length + 1) page_token params v []
          rest) := by
  unfold zoom_loop
  rw [get_total_page_count_ok ds url auth params b v rest hb]

theorem zoomLoopAux_page_run (ds : JVal) (url : String) (auth : Auth)
    (name : String) (pages : List (Dict × List Rec)) :
    ∀ (f : Nat) (params : Dict) (i m : Int) (acc : List Rec)
      (tail : List HttpResponse),
    (∀ p ∈ pages, PageOk name p) → 1 ≤ i →
    i + pages.length ≤ m + 1 →
    zoomLoopAux ds url auth name (pages.length + f) false
        (aset params "page_number" (.jInt i)) (.jInt m) acc
        (pages.map (fun p => mkResp p.1) ++ tail) =
      addEvs (pageEvents url auth params i pages.length)
        (zoomLoopAux ds url auth name f false
          (aset params "page_number" (.jInt (i + pages.length))) (.jInt m)
          (acc ++ (pages.map Prod.snd).flatten) tail) := by
  induction pages with
  | nil =>
    intro f params i m acc tail _ _ _
    simp [pageEvents, addEvs_nil]
  | cons p ps ih =>
    intro f params i m acc tail hok hi hle
    have hps : ∀ q ∈ ps, PageOk name q :=
      fun q hq => hok q (List.mem_cons_of_mem _ hq)
    have hp : PageOk name p := hok p (List.mem_cons_self _ _)
    have hlen : i + ((p :: ps).length : Int) ≤ m + 1 := hle
    have hfuel : (p :: ps).length + f = (ps.length + f) + 1 := by
      simp [List.length_cons]
      omega
    rw [hfuel]
    simp only [List.map_cons, List.cons_append]
    rw [zoomLoopAux_page_step ds url auth name (ps.length + f)
      (aset params "page_number" (.jInt i)) i m acc p.1 p.2
      (ps.map (fun p => mkResp p.1) ++ tail) (aget_aset_self params _ _)
      (by omega) (by simp [List.length_cons] at hlen; omega) hp.1 hp.2]
    rw [aset_aset_same]
    rw [ih f params (i + 1) m (acc ++ p.2) tail hps (by omega)
      (by simp [List.length_cons] at hlen ⊢; omega)]
    rw [addEvs_addEvs]
    have hcast : i + 1 + (ps.length : Int) = i + ((p :: ps).length : Int) := by
      simp [List.length_cons]
      ring
    rw [hcast, List.append_assoc]
    simp [pageEvents, List.length_cons]

theorem zoomLoopAux_tok_run (ds : JVal) (url : String) (auth : Auth)
    (name : String) (pages : List (Dict × List Rec × String)) :
    ∀ (f : Nat) (params : Dict) (pc : JVal) (acc : List Rec)
      (tail : List HttpResponse),
    (∀ p ∈ pages, TokPage name p) →
    zoomLoopAux ds url auth name (pages.length + f) true params pc acc
        (pages.map (fun p => mkResp p.1) ++ tail) =
      addEvs (tokEvents url auth params pages)
        (zoomLoopAux ds url auth name f true (tokParams params pages) pc
          (acc ++ (pages.map (fun p => p.2.1)).flatten) tail) := by
  induction pages with
  | nil =>
    intro f params pc acc tail _
    simp [tokEvents, tokParams, addEvs_nil]
  | cons p ps ih =>
    intro f params pc acc tail hok
    have hps : ∀ q ∈ ps, TokPage name q :=
      fun q hq => hok q (List.mem_cons_of_mem _ hq)
    have hp : TokPage name p := hok p (List.mem_cons_self _ _)
    have hfuel : (p :: ps).length + f = (ps.length + f) + 1 := by
      simp [List.length_cons]
      omega
    rw [hfuel]
    simp only [List.map_cons, List.cons_append]
    rw [zoomLoopAux_tok_step ds url auth name (ps.length + f) true params pc
      acc p.1 p.2.1 (.jStr p.2.2) (ps.map (fun p => mkResp p.1) ++ tail)
      (Or.inl rfl) hp.1 hp.2.1 (by simp [truthy, hp.2.2])]
    rw [ih f (aset params "next_page_token" (.jStr p.2.2)) pc (acc ++ p.2.1)
      tail hps]
    rw [addEvs_addEvs, List.append_assoc]
    simp [tokEvents, tokParams]

theorem zoomLoopAux_pc_irrel (ds : JVal) (url : String) (auth : Auth)
    (name : String) : ∀ (fuel : Nat) (params : Dict) (pc pc2 : JVal)
    (acc : List Rec) (script : List HttpResponse),
    zoomLoopAux ds url auth name fuel true params pc acc script =
      zoomLoopAux ds url auth name fuel true params pc2 acc script := by
  intro fuel
  induction fuel with
  | zero =>
    intro params pc pc2 acc script
    rw [zoomLoopAux.eq_1, zoomLoopAux.eq_1]
  | succ n ih =>
    intro params pc pc2 acc script
    rw [zoomLoopAux.eq_2, zoomLoopAux.eq_2]
    simp only [if_pos rfl]
    cases hf : (get_request_retry ds url auth params script).out with
    | stuck => simp [hf]
    | exn e => cases e <;> simp [hf]
    | ok resp =>
      cases hb : resp.body with
      | none => simp [hf, hb]
      | some results =>
        cases ha : aget results name with
        | none => simp [hf, hb, ha]
        | some arr =>
          cases arr with
          | jInt k => simp [hf, hb, ha, extendRecs]
          | jStr s => simp [hf, hb, ha, extendRecs]
          | jArr rs =>
            cases ht : aget results "next_page_token" with
            | some tok =>
              cases htr : truthy tok with
              | true =>
                simp [hf, hb, ha, ht, htr, extendRecs]
                congr 1
                exact ih _ _ _ _ _
              | false =>
                cases hpn : aget params "page_number" with
                | none => simp [hf, hb, ha, ht, htr, hpn, extendRecs]
                | some pn =>
                  cases htp : truthy pn with
                  | false => simp [hf, hb, ha, ht, htr, hpn, htp, extendRecs]
                  | true =>
                    cases pn with
                    | jInt k =>
                      simp [hf, hb, ha, ht, htr, hpn, htp, extendRecs]
                      congr 1
                      exact ih _ _ _ _ _
                    | jStr s => simp [hf, hb, ha, ht, htr, hpn, htp, extendRecs]
                    | jArr a => simp [hf, hb, ha, ht, htr, hpn, htp, extendRecs]
            | none =>
              cases hpn : aget params "page_number" with
              | none => simp [hf, hb, ha, ht, hpn, extendRecs]
              | some pn =>
                cases htp : truthy pn with
                | false => simp [hf, hb, ha, ht, hpn, htp, extendRecs]
                | true =>
                  cases pn with
                  | jInt k =>
                    simp [hf, hb, ha, ht, hpn, htp, extendRecs]
                    congr 1
                    exact ih _ _ _ _ _
                  | jStr s => simp [hf, hb, ha, ht, hpn, htp, extendRecs]
                  | jArr a => simp [hf, hb, ha, ht, hpn, htp, extendRecs]

/-- Claim C1 (code bug, evaluated at the failing input): for a 429 response
carrying the digit Retry-After header 5 followed by a success response, the
source stores the header string itself into sleep_time, so time.sleep raises
TypeError: exactly one request is issued, no sleep happens, and the success
response is never returned — the claimed wait-and-reissue never happens.
The second conjunct shows the header-free path behaving as the claim says:
two 429 responses without the header are absorbed by two default sleeps and
three identical requests, returning the final success response. -/
theorem claim_C1 :
    get_request_retry (.jInt 10) "u" ⟨"k", "s", 600⟩ []
        [⟨429, some "5", some []⟩, mkResp [("page_count", .jInt 7)]] =
      ⟨.exn (.typeError "an integer is required for sleep"),
        [.req "u" ⟨"k", "s", 600⟩ []], [mkResp [("page_count", .jInt 7)]]⟩ ∧
    get_request_retry (.jInt 10) "u" ⟨"k", "s", 600⟩ []
        [⟨429, none, none⟩, ⟨429, none, none⟩,
          mkResp [("page_count", .jInt 7)]] =
      ⟨.ok (mkResp [("page_count", .jInt 7)]),
        [.req "u" ⟨"k", "s", 600⟩ [], .slept 10, .req "u" ⟨"k", "s", 600⟩ [],
          .slept 10, .req "u" ⟨"k", "s", 600⟩ []], []⟩ := by
  decide

/-- Claim C2 (code bug, evaluated at the failing input): a success response
whose body is valid JSON without a page_count field makes
get_total_page_count raise KeyError, because only JSONDecodeError is caught;
the claim (and the zero initialisation in the source) say it returns 0.  The
other two conjuncts show the error cases that do behave as claimed: a JSON
decode failure and an HTTP error both yield 0. -/
theorem claim_C2 :
    get_total_page_count (.jInt 10) "u" ⟨"k", "s", 600⟩ [] [mkResp []] =
      ⟨.exn (.keyError "page_count"), [.req "u" ⟨"k", "s", 600⟩ []], []⟩ ∧
    get_total_page_count (.jInt 10) "u" ⟨"k", "s", 600⟩ []
        [⟨200, none, none⟩] =
      ⟨.ok (.jInt 0), [.req "u" ⟨"k", "s", 600⟩ []], []⟩ ∧
    get_total_page_count (.jInt 10) "u" ⟨"k", "s", 600⟩ [] [errResp] =
      ⟨.ok (.jInt 0), [.req "u" ⟨"k", "s", 600⟩ []], []⟩ := by
  decide

/-- Claim C10: when params has no page_number key and page_token is false,
zoom_loop issues only the single page-count request of its delegated
get_total_page_count call and then raises TypeError at the loop condition,
comparing None with the page count; no record page is fetched and nothing is
returned normally. -/
theorem claim_C10 (ds : JVal) (url : String) (auth : Auth) (name : String)
    (params pcb : Dict) (pcv : JVal) (tail : List HttpResponse)
    (hpn : aget params "page_number" = none)
    (hpc : aget pcb "page_count" = some pcv) :
    zoom_loop ds url auth name params false (mkResp pcb :: tail) =
      ⟨.exn (.typeError "NoneType is not orderable"), params,
        [.req url auth params], tail⟩ := by
  rw [zoom_loop_eq ds url auth name params false pcb pcv tail hpc]
  rw [zoomLoopAux_none_cond ds url auth name tail.length params pcv [] tail hpn]
  simp [addEvs]

/-- Witness for claim C10 at a concrete input: the users query parameters
without a page number. -/
theorem claim_C10_witness :
    zoom_loop (.jInt 10) "u" ⟨"k", "s", 600⟩ "users"
        [("status", .jStr "active")] false [mkResp [("page_count", .jInt 3)]] =
      ⟨.exn (.typeError "NoneType is not orderable"),
        [("status", .jStr "active")],
        [.req "u" ⟨"k", "s", 600⟩ [("status", .jStr "active")]], []⟩ :=
  claim_C10 (.jInt 10) "u" ⟨"k", "s", 600⟩ "users"
    [("status", .jStr "active")] [("page_count", .jInt 3)] (.jInt 3) []
    (by decide) (by decide)

/-- Counterexample to claim C6 as stated: in token mode with the page_number
parameter present but bound to the empty string (a falsy non-integer), the
advancement step reaches a token-free response, the elif guard on the
truthiness of page_number fails, and zoom_loop breaks and returns its
records normally instead of raising a type error. -/
theorem claim_C6_counterexample :
    (zoom_loop (.jInt 10) "u" ⟨"k", "s", 600⟩ "users"
        [("page_number", .jStr "")] true
        [mkResp [("page_count", .jInt 5)],
          mkResp [("users", .jArr [[("id", .int 7)]])]]).out =
      .ok [[("id", .int 7)]] := by
  decide

/-- Claim C6 (amended): when advancement reaches a token-free response and
the page_number parameter is present with a truthy value that is not an
integer, zoom_loop raises the TypeError of the increment branch, which
propagates out of the call uncaught; a falsy non-integer value (such as the
empty string) instead ends the loop normally. -/
theorem claim_C6 (ds : JVal) (url : String) (auth : Auth) (name : String)
    (params pcb b : Dict) (pcv : JVal) (rs : List Rec) (pn : JVal)
    (tail : List HttpResponse)
    (hpc : aget pcb "page_count" = some pcv)
    (hattr : aget b name = some (.jArr rs))
    (htok : aget b "next_page_token" = none)
    (hpn : aget params "page_number" = some pn)
    (htr : truthy pn = true) (hni : ∀ n : Int, pn ≠ .jInt n) :
    (zoom_loop ds url auth name params true (mkResp pcb :: mkResp b :: tail)).out =
      .exn (.typeError "Could not increment page number as it not an int") := by
  rw [zoom_loop_eq ds url auth name params true pcb pcv (mkResp b :: tail) hpc]
  rw [show (mkResp b :: tail).length + 1 = (tail.length + 1) + 1 from by simp]
  rw [zoomLoopAux_raise_step ds url auth name (tail.length + 1) true params pcv
    [] b rs pn tail (Or.inl rfl) hattr htok hpn htr hni]
  simp [addEvs]

/-- Witness for the amended claim C6: page_number bound to the nonempty
string 3 raises the increment TypeError. -/
theorem claim_C6_witness :
    (zoom_loop (.jInt 10) "u" ⟨"k", "s", 600⟩ "users"
        [("page_number", .jStr "3")] true
        [mkResp [("page_count", .jInt 5)],
          mkResp [("users", .jArr [[("id", .int 7)]])]]).out =
      .exn (.typeError "Could not increment page number as it not an int") :=
  claim_C6 (.jInt 10) "u" ⟨"k", "s", 600⟩ "users"
    [("page_number", .jStr "3")] [("page_count", .jInt 5)]
    [("users", .jArr [[("id", .int 7)]])] (.jInt 5) [[("id", .int 7)]]
    (.jStr "3") [] (by decide) (by decide) (by decide) (by decide) (by decide)
    (fun n h => by cases h)

/-- Counterexample to claim C4 as stated: page-number mode, the first record
page carries a token (params now hold next_page_token and the loop is
token-driven), yet the second page omits the token and the loop increments
page_number from 1 to 2 afterwards — the page-number parameter is
incremented again after the token appeared. -/
theorem claim_C4_counterexample :
    aget (zoom_loop (.jInt 10) "u" ⟨"k", "s", 600⟩ "users"
        [("page_number", .jInt 1)] false
        [mkResp [("page_count", .jInt 2)],
          mkResp [("users", .jArr [[("id", .int 1)]]),
            ("next_page_token", .jStr "tok")],
          mkResp [("users", .jArr [[("id", .int 2)]])]]).finalParams
        "page_number" = some (.jInt 2) ∧
    aget (zoom_loop (.jInt 10) "u" ⟨"k", "s", 600⟩ "users"
        [("page_number", .jInt 1)] false
        [mkResp [("page_count", .jInt 2)],
          mkResp [("users", .jArr [[("id", .int 1)]]),
            ("next_page_token", .jStr "tok")],
          mkResp [("users", .jArr [[("id", .int 2)]])]]).finalParams
        "next_page_token" = some (.jStr "tok") := by
  decide

/-- Claim C4 (amended): in the step whose response carries a truthy
next_page_token, the token is stored into params, the page-number parameter
is left untouched (token takes precedence in that step), and the loop
continues with a permanently truthy page_token, so the loop condition is
token-driven from then on and the page-count bound is never consulted again
(second conjunct); a later response that omits the token still increments a
present page-number parameter. -/
theorem claim_C4 :
    (∀ (ds : JVal) (url : String) (auth : Auth) (name : String) (fuel : Nat)
        (pageTok : Bool) (params : Dict) (pc : JVal) (acc : List Rec)
        (b : Dict) (rs : List Rec) (tok : JVal) (rest : List HttpResponse),
      (pageTok = true ∨ pyLEOpt (aget params "page_number") pc = .ok true) →
      aget b name = some (.jArr rs) →
      aget b "next_page_token" = some tok → truthy tok = true →
      zoomLoopAux ds url auth name (fuel + 1) pageTok params pc acc
          (mkResp b :: rest) =
        addEvs [.req url auth params]
          (zoomLoopAux ds url auth name fuel true
            (aset params "next_page_token" tok) pc (acc ++ rs) rest))
  ∧ (∀ (ds : JVal) (url : String) (auth : Auth) (name : String) (fuel : Nat)
        (params : Dict) (pc pc2 : JVal) (acc : List Rec)
        (script : List HttpResponse),
      zoomLoopAux ds url auth name fuel true params pc acc script =
        zoomLoopAux ds url auth name fuel true params pc2 acc script) := by
  constructor
  · intro ds url auth name fuel pageTok params pc acc b rs tok rest hcond
      hattr htok htr
    exact zoomLoopAux_tok_step ds url auth name fuel pageTok params pc acc b
      rs tok rest hcond hattr htok htr
  · intro ds url auth name fuel params pc pc2 acc script
    exact zoomLoopAux_pc_irrel ds url auth name fuel params pc pc2 acc script

/-- Witness for the amended claim C4 at a concrete input: the token is
stored, page_number stays 1, and the loop proceeds token-driven. -/
theorem claim_C4_witness :
    zoomLoopAux (.jInt 10) "u" ⟨"k", "s", 600⟩ "users" 1 false
        [("page_number", .jInt 1)] (.jInt 2) []
        [mkResp [("users", .jArr [[("id", .int 1)]]),
          ("next_page_token", .jStr "tok")]] =
      ⟨.stuck, [("page_number", .jInt 1), ("next_page_token", .jStr "tok")],
        [.req "u" ⟨"k", "s", 600⟩ [("page_number", .jInt 1)]], []⟩ :=
  (claim_C4.1 (.jInt 10) "u" ⟨"k", "s", 600⟩ "users" 0 false
      [("page_number", .jInt 1)] (.jInt 2) []
      [("users", .jArr [[("id", .int 1)]]), ("next_page_token", .jStr "tok")]
      [[("id", .int 1)]] (.jStr "tok") [] (Or.inr rfl) (by decide)
      (by decide) (by decide)).trans (by decide)

/-- Claim C5: a mid-loop fetch that raises HTTPError (a 4xx or 5xx status
other than 429) or a mid-loop body that fails to parse as JSON makes the
pagination loop break and return the records accumulated so far, with no
exception reaching the caller.  The first conjunct states this for every
reachable loop state (any mode, any accumulator); the second conjunct runs
it end to end through zoom_loop: one successful page followed by the
failure yields exactly the first page of records. -/
theorem claim_C5 :
    (∀ (ds : JVal) (url : String) (auth : Auth) (name : String) (fuel : Nat)
        (pageTok : Bool) (params : Dict) (pc : JVal) (acc : List Rec)
        (bad : HttpResponse) (rest : List HttpResponse),
      (pageTok = true ∨ pyLEOpt (aget params "page_number") pc = .ok true) →
      ((400 ≤ bad.status ∧ bad.status < 600 ∧ bad.status ≠ 429) ∨
        (bad.status = 200 ∧ bad.body = none)) →
      zoomLoopAux ds url auth name (fuel + 1) pageTok params pc acc
          (bad :: rest) = ⟨.ok acc, params, [.req url auth params], rest⟩)
  ∧ (∀ (ds : JVal) (url : String) (auth : Auth) (name : String)
        (params pcb b1 : Dict) (m : Int) (rs1 : List Rec)
        (bad : HttpResponse) (tail : List HttpResponse),
      aget params "page_number" = some (.jInt 1) →
      aget pcb "page_count" = some (.jInt m) → 2 ≤ m →
      aget b1 name = some (.jArr rs1) →
      aget b1 "next_page_token" = none →
      ((400 ≤ bad.status ∧ bad.status < 600 ∧ bad.status ≠ 429) ∨
        (bad.status = 200 ∧ bad.body = none)) →
      (zoom_loop ds url auth name params false
          (mkResp pcb :: mkResp b1 :: bad :: tail)).out = .ok rs1) := by
  constructor
  · intro ds url auth name fuel pageTok params pc acc bad rest hcond hbad
    exact zoomLoopAux_bad_step ds url auth name fuel pageTok params pc acc bad
      rest hcond hbad
  · intro ds url auth name params pcb b1 m rs1 bad tail hpn hpc hm hattr htok
      hbad
    rw [zoom_loop_eq ds url auth name params false pcb (.jInt m)
      (mkResp b1 :: bad :: tail) hpc]
    rw [show (mkResp b1 :: bad :: tail).length + 1 = (tail.length + 2) + 1
      from by simp]
    rw [zoomLoopAux_page_step ds url auth name (tail.length + 2) params 1 m []
      b1 rs1 (bad :: tail) hpn (by omega) (by omega) hattr htok]
    rw [show tail.length + 2 = (tail.length + 1) + 1 from rfl]
    rw [zoomLoopAux_bad_step ds url auth name (tail.length + 1) false
      (aset params "page_number" (.jInt (1 + 1))) (.jInt m) ([] ++ rs1) bad
      tail (Or.inr (by simp [pyLEOpt, pyLEJ, aget_aset_self]; omega)) hbad]
    simp [addEvs]

/-- Witness for claim C5: the loop-state conjunct at a token-mode state with
one accumulated record meeting a 404, and the end-to-end conjunct with one
good page followed by a 404. -/
theorem claim_C5_witness :
    zoomLoopAux (.jInt 10) "u" ⟨"k", "s", 600⟩ "users" 1 true
        [("type", .jStr "past")] (.jInt 0) [[("id", .int 9)]] [errResp] =
      ⟨.ok [[("id", .int 9)]], [("type", .jStr "past")],
        [.req "u" ⟨"k", "s", 600⟩ [("type", .jStr "past")]], []⟩ ∧
    (zoom_loop (.jInt 10) "u" ⟨"k", "s", 600⟩ "users"
        [("page_number", .jInt 1)] false
        [mkResp [("page_count", .jInt 2)],
          mkResp [("users", .jArr [[("id", .int 1)]])], errResp]).out =
      .ok [[("id", .int 1)]] :=
  ⟨claim_C5.1 (.jInt 10) "u" ⟨"k", "s", 600⟩ "users" 0 true
      [("type", .jStr "past")] (.jInt 0) [[("id", .int 9)]] errResp []
      (Or.inl rfl) (Or.inl (by decide)),
    claim_C5.2 (.jInt 10) "u" ⟨"k", "s", 600⟩ "users"
      [("page_number", .jInt 1)] [("page_count", .jInt 2)]
      [("users", .jArr [[("id", .int 1)]])] 2 [[("id", .int 1)]] errResp []
      (by decide) (by decide) (by decide) (by decide) (by decide)
      (Or.inl (by decide))⟩

/-- Claim C3: page-number mode (first conjunct) — with page_token false, an
integer page_number parameter starting at 1, and a reported total of
pages.length pages, zoom_loop issues one page-count request and then one
record fetch per page number 1, 2, ..., pages.length (the pageEvents trace),
accumulates all their records in order, and stops, leaving the remaining
script untouched.  Token mode (second conjunct) — with page_token true and
no page_number parameter, zoom_loop keeps fetching while responses carry a
nonempty next_page_token and stops at the first response that omits it,
returning all records and leaving the rest of the script untouched. -/
theorem claim_C3 :
    (∀ (ds : JVal) (url : String) (auth : Auth) (name : String)
        (params pcb : Dict) (pages : List (Dict × List Rec))
        (tail : List HttpResponse),
      aget params "page_number" = some (.jInt 1) →
      aget pcb "page_count" = some (.jInt pages.length) →
      (∀ p ∈ pages, PageOk name p) →
      zoom_loop ds url auth name params false
          (mkResp pcb :: (pages.map (fun p => mkResp p.1) ++ tail)) =
        ⟨.ok (pages.map Prod.snd).flatten,
          aset params "page_number" (.jInt (1 + pages.length)),
          .req url auth params :: pageEvents url auth params 1 pages.length,
          tail⟩)
  ∧ (∀ (ds : JVal) (url : String) (auth : Auth) (name : String)
        (params pcb lastb : Dict) (pcv : JVal)
        (pages : List (Dict × List Rec × String)) (lastRecs : List Rec)
        (tail : List HttpResponse),
      aget params "page_number" = none →
      aget pcb "page_count" = some pcv →
      (∀ p ∈ pages, TokPage name p) →
      PageOk name (lastb, lastRecs) →
      zoom_loop ds url auth name params true
          (mkResp pcb ::
            (pages.map (fun p => mkResp p.1) ++ mkResp lastb :: tail)) =
        ⟨.ok ((pages.map (fun p => p.2.1)).flatten ++ lastRecs),
          tokParams params pages,
          .req url auth params ::
            (tokEvents url auth params pages ++
              [.req url auth (tokParams params pages)]),
          tail⟩) := by
  constructor
  · intro ds url auth name params pcb pages tail hpn hpc hok
    rw [zoom_loop_eq ds url auth name params false pcb (.jInt pages.length)
      (pages.map (fun p => mkResp p.1) ++ tail) hpc]
    rw [show (pages.map (fun p => mkResp p.1) ++ tail).length + 1 =
      pages.length + (tail.length + 1) from by simp; omega]
    have h1 := zoomLoopAux_page_run ds url auth name pages (tail.length + 1)
      params 1 (pages.length : Int) [] tail hok (by omega) (by omega)
    rw [aset_eq_of_aget params "page_number" (.jInt 1) hpn] at h1
    rw [h1]
    rw [zoomLoopAux_count_exit ds url auth name tail.length
      (aset params "page_number" (.jInt (1 + (pages.length : Int))))
      (1 + (pages.length : Int)) (pages.length : Int)
      ([] ++ (pages.map Prod.snd).flatten) tail
      (aget_aset_self params _ _) (by omega)]
    simp [addEvs]
  · intro ds url auth name params pcb lastb pcv pages lastRecs tail hpn hpc
      hok hlast
    rw [zoom_loop_eq ds url auth name params true pcb pcv
      (pages.map (fun p => mkResp p.1) ++ mkResp lastb :: tail) hpc]
    rw [show (pages.map (fun p => mkResp p.1) ++ mkResp lastb :: tail).length
      + 1 = pages.length + ((tail.length + 1) + 1) from by simp; omega]
    rw [zoomLoopAux_tok_run ds url auth name pages ((tail.length + 1) + 1)
      params pcv [] (mkResp lastb :: tail) hok]
    rw [zoomLoopAux_final_step ds url auth name (tail.length + 1) true
      (tokParams params pages) pcv
      ([] ++ (pages.map (fun p => p.2.1)).flatten) lastb lastRecs tail
      (Or.inl rfl) hlast.1 hlast.2
      (by rw [aget_tokParams_ne pages params "page_number" (by decide)]
          exact hpn)]
    simp [addEvs]

/-- Witness for claim C3: one page in page-number mode (two requests, page
number advanced to 2) and one token page plus a token-free page in token
mode (three requests, stopping at the token-free response). -/
theorem claim_C3_witness :
    zoom_loop (.jInt 10) "u" ⟨"k", "s", 600⟩ "users"
        [("page_number", .jInt 1)] false
        [mkResp [("page_count", .jInt 1)],
          mkResp [("users", .jArr [[("id", .int 5)]])]] =
      ⟨.ok [[("id", .int 5)]], [("page_number", .jInt 2)],
        [.req "u" ⟨"k", "s", 600⟩ [("page_number", .jInt 1)],
          .req "u" ⟨"k", "s", 600⟩ [("page_number", .jInt 1)]], []⟩ ∧
    zoom_loop (.jInt 10) "u" ⟨"k", "s", 600⟩ "meetings"
        [("type", .jStr "past")] true
        [mkResp [("page_count", .jInt 9)],
          mkResp [("meetings", .jArr [[("id", .int 1)]]),
            ("next_page_token", .jStr "t1")],
          mkResp [("meetings", .jArr [[("id", .int 2)]])]] =
      ⟨.ok [[("id", .int 1)], [("id", .int 2)]],
        [("type", .jStr "past"), ("next_page_token", .jStr "t1")],
        [.req "u" ⟨"k", "s", 600⟩ [("type", .jStr "past")],
          .req "u" ⟨"k", "s", 600⟩ [("type", .jStr "past")],
          .req "u" ⟨"k", "s", 600⟩
            [("type", .jStr "past"), ("next_page_token", .jStr "t1")]], []⟩ :=
  ⟨(claim_C3.1 (.jInt 10) "u" ⟨"k", "s", 600⟩ "users"
      [("page_number", .jInt 1)] [("page_count", .jInt 1)]
      [([("users", .jArr [[("id", .int 5)]])], [[("id", .int 5)]])] []
      (by decide) (by decide) (by decide)).trans (by decide),
    (claim_C3.2 (.jInt 10) "u" ⟨"k", "s", 600⟩ "meetings"
      [("type", .jStr "past")] [("page_count", .jInt 9)]
      [("meetings", .jArr [[("id", .int 2)]])] (.jInt 9)
      [([("meetings", .jArr [[("id", .int 1)]]),
          ("next_page_token", .jStr "t1")], [[("id", .int 1)]], "t1")]
      [[("id", .int 2)]] [] (by decide) (by decide) (by decide)
      (by decide)).trans (by decide)⟩

theorem zoomLoopAux_incr_step (ds : JVal) (url : String) (auth : Auth)
    (name : String) (fuel : Nat) (pageTok : Bool) (params : Dict) (pc : JVal)
    (acc : List Rec) (b : Dict) (rs : List Rec) (i : Int)
    (rest : List HttpResponse)
    (hcond : pageTok = true ∨
      pyLEOpt (aget params "page_number") pc = .ok true)
    (hattr : aget b name = some (.jArr rs))
    (htok : aget b "next_page_token" = none)
    (hpn : aget params "page_number" = some (.jInt i)) (hi : i ≠ 0) :
    zoomLoopAux ds url auth name (fuel + 1) pageTok params pc acc
        (mkResp b :: rest) =
      addEvs [.req url auth params]
        (zoomLoopAux ds url auth name fuel pageTok
          (aset params "page_number" (.jInt (i + 1))) pc (acc ++ rs)
          rest) := by
  rw [zoomLoopAux.eq_2]
  rw [get_request_retry_200 ds url auth params (mkResp b) rest rfl]
  rcases hcond with h | h
  · simp [h, mkResp, hattr, htok, hpn, truthy, hi, extendRecs]
  · rw [hpn] at h
    simp [h, mkResp, hattr, htok, hpn, truthy, hi, extendRecs]

theorem zoom_loop_pc0 (ds : JVal) (url : String) (auth : Auth) (name : String)
    (p : Dict) (rest : List HttpResponse)
    (hpn : aget p "page_number" = some (.jInt 1)) :
    zoom_loop ds url auth name p false (pcResp 0 :: rest) =
      ⟨.ok [], p, [.req url auth p], rest⟩ := by
  simp only [pcResp]
  rw [zoom_loop_eq ds url auth name p false [("page_count", .jInt 0)] (.jInt 0)
    rest (by decide)]
  rw [zoomLoopAux_count_exit ds url auth name rest.length p 1 0 [] rest hpn
    (by omega)]
  simp [addEvs]

theorem zoom_loop_onepage (ds : JVal) (url : String) (auth : Auth)
    (name : String) (p : Dict) (rs : List Rec) (rest : List HttpResponse)
    (hpn : aget p "page_number" = some (.jInt 1))
    (hname : name ≠ "next_page_token") :
    zoom_loop ds url auth name p false (pcResp 1 :: pageResp name rs :: rest) =
      ⟨.ok rs, aset p "page_number" (.jInt 2),
        [.req url auth p, .req url auth p], rest⟩ := by
  simp only [pcResp, pageResp]
  rw [zoom_loop_eq ds url auth name p false [("page_count", .jInt 1)] (.jInt 1)
    (mkResp [(name, .jArr rs)] :: rest) (by decide)]
  rw [show (mkResp [(name, .jArr rs)] :: rest).length + 1 =
    (rest.length + 1) + 1 from by simp]
  rw [zoomLoopAux_page_step ds url auth name (rest.length + 1) p 1 1 []
    [(name, .jArr rs)] rs rest hpn (by omega) (by omega) (by simp [aget])
    (by simp [aget, hname])]
  rw [zoomLoopAux_count_exit ds url auth name rest.length
    (aset p "page_number" (.jInt (1 + 1))) (1 + 1) 1 ([] ++ rs) rest
    (aget_aset_self p _ _) (by omega)]
  simp [addEvs]

theorem zoom_loop_c9block (ds : JVal) (url : String) (auth : Auth)
    (name : String) (p : Dict) (t : String) (rs1 rs2 : List Rec)
    (rest : List HttpResponse)
    (hpn : aget p "page_number" = some (.jInt 1))
    (hname : name ≠ "next_page_token") (ht : t ≠ "") :
    zoom_loop ds url auth name p false (c9Block name t rs1 rs2 ++ rest) =
      ⟨.ok (rs1 ++ rs2),
        aset (aset p "next_page_token" (.jStr t)) "page_number" (.jInt 2),
        [.req url auth p, .req url auth p,
          .req url auth (aset p "next_page_token" (.jStr t)),
          .req url auth
            (aset (aset p "next_page_token" (.jStr t)) "page_number"
              (.jInt 2))],
        rest⟩ := by
  simp only [c9Block, pcResp, tokResp, pageResp, List.cons_append,
    List.nil_append]
  rw [zoom_loop_eq ds url auth name p false [("page_count", .jInt 1)] (.jInt 1)
    (mkResp [(name, .jArr rs1), ("next_page_token", .jStr t)] ::
      mkResp [(name, .jArr rs2)] :: errResp :: rest) (by decide)]
  rw [show (mkResp [(name, .jArr rs1), ("next_page_token", .jStr t)] ::
      mkResp [(name, .jArr rs2)] :: errResp :: rest).length + 1 =
    (rest.length + 3) + 1 from by simp]
  rw [zoomLoopAux_tok_step ds url auth name (rest.length + 3) false p (.jInt 1)
    [] [(name, .jArr rs1), ("next_page_token", .jStr t)] rs1 (.jStr t)
    (mkResp [(name, .jArr rs2)] :: errResp :: rest)
    (Or.inr (by simp [hpn, pyLEOpt, pyLEJ]))
    (by simp [aget, hname]) (by simp [aget, hname]) (by simp [truthy, ht])]
  rw [show rest.length + 3 = (rest.length + 2) + 1 from rfl]
  rw [zoomLoopAux_incr_step ds url auth name (rest.length + 2) true
    (aset p "next_page_token" (.jStr t)) (.jInt 1) ([] ++ rs1)
    [(name, .jArr rs2)] rs2 1 (errResp :: rest) (Or.inl rfl)
    (by simp [aget]) (by simp [aget, hname])
    (by rw [aget_aset_ne p "next_page_token" "page_number" _ (by decide)]
        exact hpn)
    (by omega)]
  rw [show rest.length + 2 = (rest.length + 1) + 1 from rfl]
  rw [zoomLoopAux_bad_step ds url auth name (rest.length + 1) true
    (aset (aset p "next_page_token" (.jStr t)) "page_number" (.jInt (1 + 1)))
    (.jInt 1) (([] ++ rs1) ++ rs2) errResp rest (Or.inl rfl)
    (Or.inl (by simp [errResp]))]
  simp [addEvs]

theorem dparams_dparamsFold (days : List Nat) :
    ∀ (params : Dict) (d : Nat),
    dparams (dparamsFold params days) d = dparams params d := by
  induction days with
  | nil => intro params d; rfl
  | cons d0 rest ih =>
    intro params d
    simp only [dparamsFold]
    rw [ih (dparams params d0) d, dparams_dparams]

theorem aget_dparamsFold_ne (days : List Nat) :
    ∀ (params : Dict) (k : String), k ≠ "from" → k ≠ "to" →
    aget (dparamsFold params days) k = aget params k := by
  induction days with
  | nil => intro params k _ _; rfl
  | cons d rest ih =>
    intro params k hf ht2
    simp only [dparamsFold]
    rw [ih (dparams params d) k hf ht2, aget_dparams_ne params d k hf ht2]

theorem reportDates_pc0 (ds : JVal) (url : String) (auth : Auth)
    (name : String) (days : List Nat) :
    ∀ (params : Dict) (rest : List HttpResponse),
    aget params "page_number" = some (.jInt 1) →
    reportDates ds url auth name false days params
        (List.replicate days.length (pcResp 0) ++ rest) =
      ⟨.ok [], dparamsFold params days,
        days.map (fun d => ⟨url, auth, dparams params d⟩),
        days.map (fun d => .req url auth (dparams params d)), rest⟩ := by
  induction days with
  | nil =>
    intro params rest _
    simp [reportDates, dparamsFold]
  | cons d days2 ih =>
    intro params rest hpn
    have hpn1 : aget (dparams params d) "page_number" = some (.jInt 1) := by
      rw [aget_dparams_ne params d _ (by decide) (by decide)]
      exact hpn
    simp only [List.length_cons, List.replicate, List.cons_append]
    simp only [reportDates]
    rw [zoom_loop_pc0 ds url auth name (dparams params d)
      (List.replicate days2.length (pcResp 0) ++ rest) hpn1]
    rw [ih (dparams params d) rest hpn1]
    simp [dparamsFold, dparams_dparams]

theorem reportDates_c9 (ds : JVal) (url : String) (auth : Auth)
    (name : String) (tF : Nat → String) (rs1F rs2F : Nat → List Rec)
    (hname : name ≠ "next_page_token") (htF : ∀ d, tF d ≠ "")
    (days : List Nat) :
    ∀ (params : Dict) (rest : List HttpResponse),
    aget params "page_number" = some (.jInt 1) →
    reportDates ds url auth name false days params
        (c9DateScript name tF rs1F rs2F days ++ rest) =
      ⟨.ok ((days.map (fun d => rs1F d ++ rs2F d)).flatten),
        dparamsFold params days,
        days.map (fun d => ⟨url, auth, dparams params d⟩),
        (days.map (fun d =>
          [Ev.req url auth (dparams params d),
            .req url auth (dparams params d),
            .req url auth
              (aset (dparams params d) "next_page_token" (.jStr (tF d))),
            .req url auth
              (aset (aset (dparams params d) "next_page_token"
                (.jStr (tF d))) "page_number" (.jInt 2))])).flatten,
        rest⟩ := by
  induction days with
  | nil =>
    intro params rest _
    simp [reportDates, dparamsFold, c9DateScript]
  | cons d days2 ih =>
    intro params rest hpn
    have hpn1 : aget (dparams params d) "page_number" = some (.jInt 1) := by
      rw [aget_dparams_ne params d _ (by decide) (by decide)]
      exact hpn
    simp only [c9DateScript, List.map_cons, List.flatten_cons,
      List.append_assoc]
    simp only [reportDates]
    rw [zoom_loop_c9block ds url auth name (dparams params d) (tF d) (rs1F d)
      (rs2F d) ((days2.map (fun d2 => c9Block name (tF d2) (rs1F d2)
        (rs2F d2))).flatten ++ rest) hpn1 hname (htF d)]
    rw [show ((days2.map (fun d2 => c9Block name (tF d2) (rs1F d2)
      (rs2F d2))).flatten ++ rest) = c9DateScript name tF rs1F rs2F days2 ++
      rest from by simp [c9DateScript]]
    rw [ih (dparams params d) rest hpn1]
    simp [dparamsFold, dparams_dparams]

theorem c7CallsFor_fold (api_url : String) (today : Nat) (days : List Nat)
    (params : Dict) :
    c7CallsFor api_url (dparamsFold params days) today =
      c7CallsFor api_url params today :=
  funext fun c => by
    cases hc : c.earliestFrom <;>
      simp [c7CallsFor, hc, dparams_dparamsFold]

theorem reportAccounts_c7 (ds : JVal) (api_url name : String) (today : Nat)
    (configs : List ZoomConfig) :
    ∀ (key : Nat) (params : Dict) (rest : List HttpResponse),
    aget params "page_number" = some (.jInt 1) →
    (∀ cfg ∈ configs, cfg.earliestFrom.isSome) →
    (reportAccounts ds api_url name false true today configs key params
        (c7Script today configs ++ rest)).out = .ok [] ∧
    (reportAccounts ds api_url name false true today configs key params
        (c7Script today configs ++ rest)).calls =
      (configs.map (c7CallsFor api_url params today)).flatten ∧
    (reportAccounts ds api_url name false true today configs key params
        (c7Script today configs ++ rest)).rest = rest := by
  induction configs with
  | nil =>
    intro key params rest _ _
    simp [reportAccounts, c7Script]
  | cons cfg cfgs ih =>
    intro key params rest hpn hall
    have hsome := hall cfg (List.mem_cons_self _ _)
    obtain ⟨e, he⟩ := Option.isSome_iff_exists.mp hsome
    have hall2 : ∀ c ∈ cfgs, c.earliestFrom.isSome :=
      fun c hc => hall c (List.mem_cons_of_mem _ hc)
    have hlen : ((List.range (today - e)).map (fun i => e + i)).length =
        today - e := by simp
    have hrd := reportDates_pc0 ds (cfg.baseUrl ++ api_url)
      (zoomJWT cfg.apiKey cfg.apiSecret 600) name
      ((List.range (today - e)).map (fun i => e + i)) params
      (c7Script today cfgs ++ rest) hpn
    rw [hlen] at hrd
    have hscript : c7Script today (cfg :: cfgs) ++ rest =
        List.replicate (today - e) (pcResp 0) ++
          (c7Script today cfgs ++ rest) := by
      simp [c7Script, he, List.append_assoc]
    rw [hscript]
    simp only [reportAccounts, he, if_true]
    rw [hrd]
    have hpn2 : aget (dparamsFold params
        ((List.range (today - e)).map (fun i => e + i))) "page_number" =
        some (.jInt 1) := by
      rw [aget_dparamsFold_ne _ params _ (by decide) (by decide)]
      exact hpn
    obtain ⟨ho, hc, hr⟩ := ih (key + 1)
      (dparamsFold params ((List.range (today - e)).map (fun i => e + i)))
      rest hpn2 hall2
    refine ⟨?_, ?_, ?_⟩
    · simp [ho]
    · simp [hc, c7CallsFor_fold, c7CallsFor, he, List.map_map]
    · simp [hr]

theorem reportAccounts_c8 (ds : JVal) (api_url name : String) (today : Nat)
    (recsF : Nat → List Rec) (hname : name ≠ "next_page_token")
    (configs : List ZoomConfig) :
    ∀ (key : Nat) (params : Dict) (rest : List HttpResponse),
    aget params "page_number" = some (.jInt 1) →
    (reportAccounts ds api_url name false false today configs key params
        (c8Script name recsF key configs.length ++ rest)).out =
      .ok (c8Total recsF key configs.length) ∧
    (reportAccounts ds api_url name false false today configs key params
        (c8Script name recsF key configs.length ++ rest)).rest = rest := by
  induction configs with
  | nil =>
    intro key params rest _
    simp [reportAccounts, c8Script, c8Total]
  | cons cfg cfgs ih =>
    intro key params rest hpn
    simp only [List.length_cons, c8Script, List.cons_append]
    simp only [reportAccounts, if_false, Bool.false_eq_true, ite_false]
    rw [zoom_loop_onepage ds (cfg.baseUrl ++ api_url)
      (zoomJWT cfg.apiKey cfg.apiSecret 600) name params (recsF key)
      (c8Script name recsF (key + 1) cfgs.length ++ rest) hpn hname]
    obtain ⟨ho, hr⟩ := ih (key + 1) params rest hpn
    simp [ho, hr, c8Total]

theorem c8Total_mem (recsF : Nat → List Rec) :
    ∀ (n k : Nat) (r : Rec), r ∈ c8Total recsF k n →
    ∃ j r0, k ≤ j ∧ j < k + n ∧ r0 ∈ recsF j ∧
      r = aset r0 "media_instance" (.int (j : Int)) ∧
      aget r "media_instance" = some (.int (j : Int)) := by
  intro n
  induction n with
  | zero =>
    intro k r hr
    simp [c8Total] at hr
  | succ n ih =>
    intro k r hr
    simp only [c8Total] at hr
    rcases List.mem_append.mp hr with h | h
    · obtain ⟨r0, hr0, hres⟩ := List.mem_map.mp h
      exact ⟨k, r0, le_refl k, by omega, hr0, hres.symm,
        by rw [← hres]; exact aget_aset_self r0 _ _⟩
    · obtain ⟨j, r0, hk, hkn, hr0, hres, hlook⟩ := ih (k + 1) r h
      exact ⟨j, r0, by omega, by omega, hr0, hres, hlook⟩

theorem reportAccounts_c9 (ds : JVal) (api_url name : String) (today : Nat)
    (tF : Nat → String) (rs1F rs2F : Nat → List Rec)
    (hname : name ≠ "next_page_token") (htF : ∀ j, tF j ≠ "")
    (configs : List ZoomConfig) :
    ∀ (key : Nat) (params : Dict) (rest : List HttpResponse),
    aget params "page_number" = some (.jInt 1) →
    (∃ recs, (reportAccounts ds api_url name false false today configs key
        params (c9Script name tF rs1F rs2F key configs.length ++ rest)).out =
      .ok recs) ∧
    (reportAccounts ds api_url name false false today configs key params
        (c9Script name tF rs1F rs2F key configs.length ++ rest)).calls =
      configs.map (fun cfg =>
        ⟨cfg.baseUrl ++ api_url, zoomJWT cfg.apiKey cfg.apiSecret 600,
          params⟩) ∧
    (reportAccounts ds api_url name false false today configs key params
        (c9Script name tF rs1F rs2F key configs.length ++ rest)).rest =
      rest := by
  induction configs with
  | nil =>
    intro key params rest _
    simp [reportAccounts, c9Script]
  | cons cfg cfgs ih =>
    intro key params rest hpn
    simp only [List.length_cons, c9Script, List.append_assoc]
    simp only [reportAccounts, if_false, Bool.false_eq_true, ite_false]
    rw [zoom_loop_c9block ds (cfg.baseUrl ++ api_url)
      (zoomJWT cfg.apiKey cfg.apiSecret 600) name params (tF key) (rs1F key)
      (rs2F key) (c9Script name tF rs1F rs2F (key + 1) cfgs.length ++ rest)
      hpn hname (htF key)]
    obtain ⟨⟨recs, ho⟩, hc, hr⟩ := ih (key + 1) params rest hpn
    refine ⟨⟨?_, ?_⟩, ?_, ?_⟩
    · exact ((rs1F key ++ rs2F key).map
        (fun r => aset r "media_instance" (.int (key : Int)))) ++ recs
    · simp [ho]
    · simp [hc]
    · simp [hr]

/-- Claim C7: with dateMode on and every configured account declaring an
earliest-from date, run_report makes exactly one zoom_loop invocation per
calendar day from that date (inclusive) up to today (exclusive), per
account, in ascending date order, each carrying the shared params with both
from and to set to that day (the c7CallsFor trace); the benign script gives
every pull zero pages so only the invocation pattern is exercised. -/
theorem claim_C7 (ds : JVal) (configs : List ZoomConfig)
    (api_url name : String) (dp : Dict) (ps : Int) (today : Nat)
    (hpn : aget (mergedParams dp ps) "page_number" = some (.jInt 1))
    (hall : ∀ cfg ∈ configs, cfg.earliestFrom.isSome) :
    (run_report ds configs api_url name dp ps false true today
        (c7Script today configs)).calls =
      (configs.map (c7CallsFor api_url (mergedParams dp ps) today)).flatten := by
  unfold run_report
  have h := (reportAccounts_c7 ds api_url name today configs 1
    (mergedParams dp ps) [] hpn hall).2.1
  rw [List.append_nil] at h
  exact h

/-- Witness for claim C7: earliest = today - 3 (today 10, earliest 7) yields
exactly 3 invocations with from/to set to 7, 8, 9 in ascending order. -/
theorem claim_C7_witness :
    (run_report (.jInt 10) [⟨"b", "k", "s", some 7⟩] "/m" "meetings"
        [("page_number", .jInt 1)] 0 false true 10
        (c7Script 10 [⟨"b", "k", "s", some 7⟩])).calls =
      [⟨"b/m", ⟨"k", "s", 600⟩,
          [("page_number", .jInt 1), ("from", .jStr "7"), ("to", .jStr "7")]⟩,
        ⟨"b/m", ⟨"k", "s", 600⟩,
          [("page_number", .jInt 1), ("from", .jStr "8"), ("to", .jStr "8")]⟩,
        ⟨"b/m", ⟨"k", "s", 600⟩,
          [("page_number", .jInt 1), ("from", .jStr "9"),
            ("to", .jStr "9")]⟩] :=
  (claim_C7 (.jInt 10) [⟨"b", "k", "s", some 7⟩] "/m" "meetings"
    [("page_number", .jInt 1)] 0 10 (by decide) (by decide)).trans (by decide)

/-- Claim C8: with two-response blocks giving each account one page of its
own records, the final accumulated sequence of run_report is exactly each
account's records tagged with that account's 1-based configuration index
under media_instance (first conjunct); and every record of that accumulated
shape carries the media_instance annotation of the account block it came
from (second conjunct). -/
theorem claim_C8 (ds : JVal) (configs : List ZoomConfig)
    (api_url name : String) (dp : Dict) (ps : Int) (today : Nat)
    (recsF : Nat → List Rec)
    (hpn : aget (mergedParams dp ps) "page_number" = some (.jInt 1))
    (hname : name ≠ "next_page_token") :
    (run_report ds configs api_url name dp ps false false today
        (c8Script name recsF 1 configs.length)).out =
      .ok (c8Total recsF 1 configs.length) ∧
    (∀ (n k : Nat) (r : Rec), r ∈ c8Total recsF k n →
      ∃ j r0, k ≤ j ∧ j < k + n ∧ r0 ∈ recsF j ∧
        r = aset r0 "media_instance" (.int (j : Int)) ∧
        aget r "media_instance" = some (.int (j : Int))) := by
  constructor
  · unfold run_report
    have h := (reportAccounts_c8 ds api_url name today recsF hname configs 1
      (mergedParams dp ps) [] hpn).1
    rw [List.append_nil] at h
    exact h
  · intro n k r hr
    exact c8Total_mem recsF n k r hr

/-- Witness for claim C8: two accounts, one record each; the result carries
media_instance 1 on the first account's record and 2 on the second one's. -/
theorem claim_C8_witness :
    (run_report (.jInt 10)
        [⟨"b1", "k1", "s1", none⟩, ⟨"b2", "k2", "s2", none⟩] "/u" "users"
        [("page_number", .jInt 1)] 300 false false 100
        (c8Script "users" (fun j => [[("id", .int (j : Int))]]) 1 2)).out =
      .ok [[("id", .int 1), ("media_instance", .int 1)],
        [("id", .int 2), ("media_instance", .int 2)]] :=
  ((claim_C8 (.jInt 10) [⟨"b1", "k1", "s1", none⟩, ⟨"b2", "k2", "s2", none⟩]
    "/u" "users" [("page_number", .jInt 1)] 300 100
    (fun j => [[("id", .int (j : Int))]]) (by decide) (by decide)).1).trans
    (by decide)

/-- Claim C9: the pagination-state mutations a zoom_loop performs in place
(token insertion and page-number increment, both exercised by every c9Block)
stay on the per-iteration copy of the query parameters.  First conjunct:
across successive account iterations every zoom_loop invocation receives the
untouched shared params value.  Second conjunct: across successive date
iterations of one account each invocation receives the shared params with
only from/to rewritten for its day; in particular the second day's params
hold no next_page_token beyond what the defaults held and still carry
page_number 1. -/
theorem claim_C9 :
    (∀ (ds : JVal) (configs : List ZoomConfig) (api_url name : String)
        (dp : Dict) (ps : Int) (today : Nat) (tF : Nat → String)
        (rs1F rs2F : Nat → List Rec),
      aget (mergedParams dp ps) "page_number" = some (.jInt 1) →
      name ≠ "next_page_token" → (∀ j, tF j ≠ "") →
      (run_report ds configs api_url name dp ps false false today
          (c9Script name tF rs1F rs2F 1 configs.length)).calls =
        configs.map (fun cfg => ⟨cfg.baseUrl ++ api_url,
          zoomJWT cfg.apiKey cfg.apiSecret 600, mergedParams dp ps⟩))
  ∧ (∀ (ds : JVal) (cfg : ZoomConfig) (api_url name : String) (dp : Dict)
        (ps : Int) (e : Nat) (tF : Nat → String)
        (rs1F rs2F : Nat → List Rec),
      cfg.earliestFrom = some e →
      aget (mergedParams dp ps) "page_number" = some (.jInt 1) →
      name ≠ "next_page_token" → (∀ j, tF j ≠ "") →
      (run_report ds [cfg] api_url name dp ps false true (e + 2)
          (c9DateScript name tF rs1F rs2F [e, e + 1])).calls =
        [⟨cfg.baseUrl ++ api_url, zoomJWT cfg.apiKey cfg.apiSecret 600,
            dparams (mergedParams dp ps) e⟩,
          ⟨cfg.baseUrl ++ api_url, zoomJWT cfg.apiKey cfg.apiSecret 600,
            dparams (mergedParams dp ps) (e + 1)⟩] ∧
        aget (dparams (mergedParams dp ps) (e + 1)) "next_page_token" =
          aget (mergedParams dp ps) "next_page_token" ∧
        aget (dparams (mergedParams dp ps) (e + 1)) "page_number" =
          some (.jInt 1)) := by
  constructor
  · intro ds configs api_url name dp ps today tF rs1F rs2F hpn hname htF
    unfold run_report
    have h := (reportAccounts_c9 ds api_url name today tF rs1F rs2F hname htF
      configs 1 (mergedParams dp ps) [] hpn).2.1
    rw [List.append_nil] at h
    exact h
  · intro ds cfg api_url name dp ps e tF rs1F rs2F he hpn hname htF
    refine ⟨?_, ?_, ?_⟩
    · unfold run_report
      simp only [reportAccounts, he, if_true]
      have hdays : (List.range (e + 2 - e)).map (fun i => e + i) =
          [e, e + 1] := by
        rw [show e + 2 - e = 2 from by omega]
        simp [show List.range 2 = [0, 1] from by decide]
      rw [hdays]
      have hrd := reportDates_c9 ds (cfg.baseUrl ++ api_url)
        (zoomJWT cfg.apiKey cfg.apiSecret 600) name tF rs1F rs2F hname htF
        [e, e + 1] (mergedParams dp ps) [] hpn
      rw [List.append_nil] at hrd
      rw [hrd]
      simp [reportAccounts]
    · rw [aget_dparams_ne _ _ _ (by decide) (by decide)]
    · rw [aget_dparams_ne _ _ _ (by decide) (by decide)]
      exact hpn

/-- Witness for claim C9: two accounts whose loops insert a token and
increment the page number; both invocations still receive the pristine
params, and the date-mode pair receives only from/to rewrites. -/
theorem claim_C9_witness :
    (run_report (.jInt 10)
        [⟨"b1", "k1", "s1", none⟩, ⟨"b2", "k2", "s2", none⟩] "/u" "users"
        [("page_number", .jInt 1)] 0 false false 100
        (c9Script "users" (fun _ => "tok") (fun j => [[("a", .int (j : Int))]])
          (fun j => [[("b", .int (j : Int))]]) 1 2)).calls =
      [⟨"b1/u", ⟨"k1", "s1", 600⟩, [("page_number", .jInt 1)]⟩,
        ⟨"b2/u", ⟨"k2", "s2", 600⟩, [("page_number", .jInt 1)]⟩] ∧
    (run_report (.jInt 10) [⟨"b", "k", "s", some 5⟩] "/u" "users"
        [("page_number", .jInt 1)] 0 false true 7
        (c9DateScript "users" (fun _ => "tok")
          (fun j => [[("a", .int (j : Int))]])
          (fun j => [[("b", .int (j : Int))]]) [5, 6])).calls =
      [⟨"b/u", ⟨"k", "s", 600⟩,
          [("page_number", .jInt 1), ("from", .jStr "5"), ("to", .jStr "5")]⟩,
        ⟨"b/u", ⟨"k", "s", 600⟩,
          [("page_number", .jInt 1), ("from", .jStr "6"),
            ("to", .jStr "6")]⟩] :=
  ⟨(claim_C9.1 (.jInt 10)
      [⟨"b1", "k1", "s1", none⟩, ⟨"b2", "k2", "s2", none⟩] "/u" "users"
      [("page_number", .jInt 1)] 0 100 (fun _ => "tok")
      (fun j => [[("a", .int (j : Int))]]) (fun j => [[("b", .int (j : Int))]])
      (by decide) (by decide) (fun _ => of_decide_eq_true rfl)).trans (by decide),
    ((claim_C9.2 (.jInt 10) ⟨"b", "k", "s", some 5⟩ "/u" "users"
      [("page_number", .jInt 1)] 0 5 (fun _ => "tok")
      (fun j => [[("a", .int (j : Int))]]) (fun j => [[("b", .int (j : Int))]])
      (by decide) (by decide) (by decide)
      (fun _ => of_decide_eq_true rfl)).1).trans (by decide)⟩
